import Mathlib

/-!
Shallow embedding of the comparison and aggregation logic of the AI-Driven
LCA Tool frontend (ComparisonTool.js, the Dashboard component, and the App
history handler). Numeric values are modelled as exact rationals; the
JavaScript special values Infinity and NaN, which arise only in the
improvement computation at a zero baseline, are modelled by the JsVal type.
-/

namespace LCA

/-- One assessment record: metal type, production route, and the `results`
mapping from metric key to numeric value (association list, first binding
wins, matching a JavaScript object). -/
structure Record where
  metal_type : String
  production_route : String
  results : List (String × ℚ)
deriving DecidableEq

/-- ComparisonTool.js, useEffect: only assessments with a non-empty
`results` object are offered for selection. -/
def availableOf (history : List Record) : List Record :=
  history.filter (fun a => !a.results.isEmpty)

/-- JavaScript `results[key] || 0`: a missing key (and an explicit 0)
contributes the value 0. -/
def metricValue (r : Record) (key : String) : ℚ :=
  (List.lookup key r.results).getD 0

/-- The six metric keys of the comparison table in renderComparisonTable. -/
def trackedMetrics : List String :=
  ["carbon_footprint", "energy_consumption", "water_usage",
   "sustainability_score", "circularity_index", "material_efficiency"]

/-- getMetricColor's lower-is-better key list (ComparisonTool.js line 97). -/
def lowerKeysColor : List String :=
  ["carbon_footprint", "energy_consumption", "water_usage", "waste_generation"]

/-- getMetricColor's higher-is-better key list (ComparisonTool.js line 99). -/
def higherKeysColor : List String :=
  ["sustainability_score", "circularity_index", "material_efficiency",
   "recycling_potential"]

/-- Severity colors used by both views. -/
inductive Color
  | success
  | warning
  | error
  | primary
deriving DecidableEq

/-- ComparisonTool.js getMetricColor, transcribed branch by branch. -/
def getMetricColor (value : ℚ) (metric : String) : Color :=
  if metric ∈ lowerKeysColor then
    if value < 50 then .success else if value < 100 then .warning else .error
  else if metric ∈ higherKeysColor then
    if value > 80 then .success else if value > 60 then .warning else .error
  else .primary

/-- Dashboard getImpactColor (HelpPage.js lines 513-525), transcribed branch
by branch, including the `value > 0.8 || value > 80` disjunctions. -/
def getImpactColor (value : ℚ) (ty : String) : Color :=
  if ty = "carbon" then
    if value < 50 then .success else if value < 200 then .warning else .error
  else if ty = "sustainability" ∨ ty = "circularity" then
    if value > 0.8 ∨ value > 80 then .success
    else if value > 0.6 ∨ value > 60 then .warning
    else .error
  else .primary

/-- A JavaScript number restricted to the values reachable in the
improvement computation: a finite rational, plus Infinity, minus Infinity,
or NaN. -/
inductive JsVal
  | fin (q : ℚ)
  | posInf
  | negInf
  | nan
deriving DecidableEq

/-- The improvement expression of getImprovementIcon:
`((baseline - current) / baseline) * 100` with JavaScript division
semantics: dividing a nonzero numerator by 0 gives a signed infinity and
0/0 gives NaN. -/
def improvementJs (current baseline : ℚ) : JsVal :=
  if baseline = 0 then
    if current > 0 then .negInf
    else if current < 0 then .posInf
    else .nan
  else .fin ((baseline - current) / baseline * 100)

/-- JavaScript `>` against a finite constant: false on NaN, true on
Infinity, false on minus Infinity. -/
def jsGtNum : JsVal → ℚ → Bool
  | .fin q, c => decide (c < q)
  | .posInf, _ => true
  | .negInf, _ => false
  | .nan, _ => false

/-- JavaScript `<` against a finite constant: false on NaN and Infinity,
true on minus Infinity. -/
def jsLtNum : JsVal → ℚ → Bool
  | .fin q, c => decide (q < c)
  | .posInf, _ => false
  | .negInf, _ => true
  | .nan, _ => false

/-- The trend icon rendered next to each non-baseline value. -/
inductive TrendIcon
  | up
  | down
  | flat
deriving DecidableEq

/-- ComparisonTool.js getImprovementIcon: up if improvement > 5, down if
improvement < -5, flat otherwise. -/
def getImprovementIcon (current baseline : ℚ) : TrendIcon :=
  if jsGtNum (improvementJs current baseline) 5 then .up
  else if jsLtNum (improvementJs current baseline) (-5) then .down
  else .flat

/-- renderComparisonTable's best value: `Math.min(...values)` when the key
is carbon_footprint, energy_consumption or water_usage, otherwise
`Math.max(...values)` (ComparisonTool.js lines 167-169). -/
def bestValue (key : String) (values : List ℚ) : ℚ :=
  match values with
  | [] => 0
  | v :: vs =>
    if key = "carbon_footprint" ∨ key = "energy_consumption" ∨ key = "water_usage" then
      vs.foldl min v
    else
      vs.foldl max v

/-- JavaScript `Array.prototype.indexOf`: index of the first occurrence,
-1 when absent. -/
def jsIndexOf (values : List ℚ) (x : ℚ) : Int :=
  match values with
  | [] => -1
  | v :: vs =>
    if v = x then 0
    else if jsIndexOf vs x = -1 then -1 else jsIndexOf vs x + 1

/-- One row of the comparison table: the aligned values, the best value and
the best index, exactly the data renderComparisonTable computes per metric. -/
structure MetricRow where
  rowValues : List ℚ
  rowBest : ℚ
  rowBestIndex : Int
deriving DecidableEq

/-- The per-metric computation of renderComparisonTable. -/
def computeRow (records : List Record) (key : String) : MetricRow :=
  let values := records.map (fun r => metricValue r key)
  ⟨values, bestValue key values, jsIndexOf values (bestValue key values)⟩

/-- The whole comparison table: one row per tracked metric. -/
def comparisonTable (records : List Record) : List (String × MetricRow) :=
  trackedMetrics.map (fun k => (k, computeRow records k))

/-- runComparison's client-side guard (ComparisonTool.js lines 74-77):
an error message exactly when fewer than 2 assessments are selected. -/
def runComparisonGuard (selected : List Nat) : Option String :=
  if selected.length < 2 then
    some "Please select at least 2 assessments to compare"
  else none

/-- handleAddAssessment: append the index only when fewer than 4 are
selected and the index is not already selected. -/
def handleAddAssessment (selected : List Nat) (idx : Nat) : List Nat :=
  if selected.length < 4 ∧ idx ∉ selected then selected ++ [idx] else selected

/-- handleRemoveAssessment: filter the index out. -/
def handleRemoveAssessment (selected : List Nat) (idx : Nat) : List Nat :=
  selected.filter (fun i => i != idx)

/-- App's handleAssessmentComplete (Navigation.js line 161):
`[assessmentData, ...prev.slice(0, 9)]`. -/
def handleAssessmentComplete (a : Record) (prev : List Record) : List Record :=
  a :: prev.take 9

/-- The dashboard statistics record. -/
structure DashboardStats where
  totalAssessments : ℚ
  avgCarbonFootprint : ℚ
  avgSustainabilityScore : ℚ
  avgCircularityIndex : ℚ
deriving DecidableEq

/-- Dashboard (HelpPage.js lines 492-511): on a non-empty history, sum the
three metrics and the count with a reduce and divide by the count; on an
empty history the state keeps its initial all-zero value. -/
def dashboardStats (history : List Record) : DashboardStats :=
  if 0 < history.length then
    let total : ℚ := history.foldl (fun acc _ => acc + 1) 0
    let carbon := history.foldl (fun acc r => acc + metricValue r "carbon_footprint") 0
    let sus := history.foldl (fun acc r => acc + metricValue r "sustainability_score") 0
    let circ := history.foldl (fun acc r => acc + metricValue r "circularity_index") 0
    ⟨total, carbon / total, sus / total, circ / total⟩
  else ⟨0, 0, 0, 0⟩

/-- Directionality of a metric, from the specification's table. -/
inductive Directionality
  | lower
  | higher
deriving DecidableEq

/-- Modelled from the spec (4.1 MetricDirectionality): the fixed
metric-to-directionality table. -/
def specDirectionality (key : String) : Option Directionality :=
  if key = "carbon_footprint" ∨ key = "energy_consumption" ∨
      key = "water_usage" ∨ key = "waste_generation" then
    some .lower
  else if key = "sustainability_score" ∨ key = "circularity_index" ∨
      key = "material_efficiency" ∨ key = "recycling_potential" then
    some .higher
  else none

/-- Modelled from the spec (4.1): the pure banding function with cutoffs
lower-is-better good < 50, warning < 100; higher-is-better good > 80,
warning > 60. -/
def band (value : ℚ) (d : Directionality) : Color :=
  match d with
  | .lower => if value < 50 then .success else if value < 100 then .warning else .error
  | .higher => if value > 80 then .success else if value > 60 then .warning else .error

/-- Modelled from the spec (4.3 step 4): the improvement percentage
relative to the baseline, null (none) at a zero baseline, with the formula
depending on directionality. -/
def specImprovement (d : Directionality) (value baseline : ℚ) : Option ℚ :=
  if baseline = 0 then none
  else match d with
    | .lower => some ((baseline - value) / baseline * 100)
    | .higher => some ((value - baseline) / baseline * 100)

/-- The selection invariant of the comparison tool: pairwise distinct
indices, at most 4 of them, each indexing an available record with
non-empty results. -/
def selInvariant (available : List Record) (selected : List Nat) : Prop :=
  selected.Nodup ∧ selected.length ≤ 4 ∧
    ∀ i ∈ selected, ∃ r, available.get? i = some r ∧ r.results ≠ []

/-- A sample record with non-empty results, used to instantiate theorems
with hypotheses. -/
def sampleRec : Record :=
  ⟨"copper", "recycled", [("carbon_footprint", 30), ("sustainability_score", 75)]⟩

/-- A record lacking the sustainability_score key. -/
def recMissing : Record :=
  ⟨"aluminium", "primary",
   [("carbon_footprint", 80), ("energy_consumption", 120), ("water_usage", 40),
    ("circularity_index", 1), ("material_efficiency", 70)]⟩

/-- The same record with sustainability_score present and equal to 0. -/
def recZero : Record :=
  ⟨"aluminium", "primary",
   [("carbon_footprint", 80), ("energy_consumption", 120), ("water_usage", 40),
    ("circularity_index", 1), ("material_efficiency", 70),
    ("sustainability_score", 0)]⟩

/-- A second record carrying all six tracked metrics. -/
def recOther : Record :=
  ⟨"steel", "recycled",
   [("carbon_footprint", 60), ("energy_consumption", 100), ("water_usage", 50),
    ("sustainability_score", 85), ("circularity_index", 2),
    ("material_efficiency", 80)]⟩

/-- C9: aggregating an empty history returns the all-zero DashboardStats
(the Dashboard effect only recomputes on a non-empty history, so the
initial all-zero state stands); the function is total, so no exception is
raised. -/
theorem c9_empty_history :
    dashboardStats [] = ⟨0, 0, 0, 0⟩ ∧
    (dashboardStats []).totalAssessments = 0 ∧
    (dashboardStats []).avgCarbonFootprint = 0 ∧
    (dashboardStats []).avgSustainabilityScore = 0 ∧
    (dashboardStats []).avgCircularityIndex = 0 := by
  refine ⟨rfl, rfl, rfl, rfl, rfl⟩

/-- C8: appending to the history places the new record at the front, keeps
the length equal to min (previous length + 1) 10 and hence at most 10, and
the tail is the unchanged 9-record prefix of the previous history (a
sublist: records are passed through, never mutated; the record beyond
position 9, the oldest, is evicted). -/
theorem c8_history_ring (a : Record) (prev : List Record) :
    (handleAssessmentComplete a prev).head? = some a ∧
    (handleAssessmentComplete a prev).length = min (prev.length + 1) 10 ∧
    (handleAssessmentComplete a prev).length ≤ 10 ∧
    (handleAssessmentComplete a prev).tail = prev.take 9 ∧
    List.Sublist (handleAssessmentComplete a prev).tail prev := by
  refine ⟨rfl, ?_, ?_, rfl, List.take_sublist 9 prev⟩
  · simp only [handleAssessmentComplete, List.length_cons, List.length_take]
    omega
  · simp only [handleAssessmentComplete, List.length_cons, List.length_take]
    omega

/-- C1 (counterexample): for the higher-is-better metric
sustainability_score, at value 85 against baseline 70, the code's
improvement is (70 - 85)/70 * 100 = -150/7, while the spec's
higher-is-better formula gives (85 - 70)/70 * 100 = 150/7; the two differ,
so the claim as stated is false. -/
theorem c1_counterexample :
    specDirectionality "sustainability_score" = some Directionality.higher ∧
    improvementJs 85 70 = JsVal.fin (-(150 / 7)) ∧
    specImprovement Directionality.higher 85 70 = some (150 / 7) ∧
    (-(150 / 7) : ℚ) ≠ 150 / 7 := by
  refine ⟨by decide, ?_, ?_, by norm_num⟩
  · simp only [improvementJs]
    rw [if_neg (by norm_num : (70 : ℚ) ≠ 0)]
    simp only [JsVal.fin.injEq]
    norm_num
  · show specImprovement Directionality.higher 85 70 = some (150 / 7)
    simp only [specImprovement]
    rw [if_neg (by norm_num : (70 : ℚ) ≠ 0)]
    show some ((85 - 70) / 70 * 100) = some (150 / 7)
    simp only [Option.some.injEq]
    norm_num

/-- C1 (amended): for every nonzero baseline, the code's improvement equals
(baseline - value)/baseline * 100 for every metric, regardless of
directionality; this coincides with the spec's lower-is-better formula and
is the exact negation of the spec's higher-is-better formula. -/
theorem c1_improvement_formula (current baseline : ℚ) (h : baseline ≠ 0) :
    improvementJs current baseline =
      JsVal.fin ((baseline - current) / baseline * 100) ∧
    specImprovement Directionality.lower current baseline =
      some ((baseline - current) / baseline * 100) ∧
    specImprovement Directionality.higher current baseline =
      some (-((baseline - current) / baseline * 100)) := by
  refine ⟨?_, ?_, ?_⟩
  · simp [improvementJs, h]
  · simp [specImprovement, h]
  · simp only [specImprovement, if_neg h, Option.some.injEq]
    field_simp
    ring

/-- C1 (witness): the amended theorem instantiated at value 85, baseline 70. -/
theorem c1_improvement_formula_witness :
    improvementJs 85 70 = JsVal.fin ((70 - 85) / 70 * 100) ∧
    specImprovement Directionality.lower 85 70 = some ((70 - 85) / 70 * 100) ∧
    specImprovement Directionality.higher 85 70 = some (-((70 - 85) / 70 * 100)) :=
  c1_improvement_formula 85 70 (by norm_num)

/-- C2 (counterexample): at baseline 0 and value 30 the improvement is not
null: JavaScript division by zero makes it minus Infinity, and a down-trend
icon is still rendered. -/
theorem c2_counterexample :
    improvementJs 30 0 = JsVal.negInf ∧
    getImprovementIcon 30 0 = TrendIcon.down := by
  decide

/-- C2 (amended): at a zero baseline no exception is raised (the
computation is total), but the improvement is not null: it is minus
Infinity when the record's value is positive, plus Infinity when it is
negative, and NaN when it is 0, and a trend icon is rendered accordingly
(down, up, flat). -/
theorem c2_zero_baseline (current : ℚ) :
    improvementJs current 0 =
      (if current > 0 then JsVal.negInf
       else if current < 0 then JsVal.posInf
       else JsVal.nan) ∧
    getImprovementIcon current 0 =
      (if current > 0 then TrendIcon.down
       else if current < 0 then TrendIcon.up
       else TrendIcon.flat) := by
  constructor
  · simp [improvementJs]
  · by_cases h1 : current > 0
    · simp [getImprovementIcon, improvementJs, h1, jsGtNum, jsLtNum]
    · by_cases h2 : current < 0
      · simp [getImprovementIcon, improvementJs, h1, h2, jsGtNum, jsLtNum]
      · simp [getImprovementIcon, improvementJs, h1, h2, jsGtNum, jsLtNum]

/-- C5 (counterexample): at carbon value 150 the comparison view bands
error (poor, since 150 is not below 100) while the dashboard view bands
warning (since 150 is below its cutoff 200); the two bandings disagree, so
the claim as stated is false. -/
theorem c5_counterexample :
    getMetricColor 150 "carbon_footprint" = Color.error ∧
    getImpactColor 150 "carbon" = Color.warning ∧
    Color.error ≠ Color.warning := by
  decide

/-- C5 (amended): the comparison view's getMetricColor implements the
spec's banding function exactly for every metric in the directionality
table, but the dashboard's getImpactColor uses different cutoffs and
disagrees with it (carbon 150 bands error in the comparison view and
warning in the dashboard), so the banding is not used identically in both
views. -/
theorem c5_banding (value : ℚ) (key : String) (d : Directionality) :
    (specDirectionality key = some d → getMetricColor value key = band value d) ∧
    getImpactColor 150 "carbon" ≠ getMetricColor 150 "carbon_footprint" := by
  constructor
  · intro hd
    unfold specDirectionality at hd
    by_cases h1 : key = "carbon_footprint" ∨ key = "energy_consumption" ∨
        key = "water_usage" ∨ key = "waste_generation"
    · rw [if_pos h1] at hd
      obtain rfl := Option.some.inj hd
      have h1m : key ∈ lowerKeysColor := by
        simp only [lowerKeysColor, List.mem_cons, List.not_mem_nil, or_false]
        tauto
      unfold getMetricColor band
      rw [if_pos h1m]
    · rw [if_neg h1] at hd
      by_cases h2 : key = "sustainability_score" ∨ key = "circularity_index" ∨
          key = "material_efficiency" ∨ key = "recycling_potential"
      · rw [if_pos h2] at hd
        obtain rfl := Option.some.inj hd
        have h1m : key ∉ lowerKeysColor := by
          simp only [lowerKeysColor, List.mem_cons, List.not_mem_nil, or_false]
          tauto
        have h2m : key ∈ higherKeysColor := by
          simp only [higherKeysColor, List.mem_cons, List.not_mem_nil, or_false]
          tauto
        unfold getMetricColor band
        rw [if_neg h1m, if_pos h2m]
      · rw [if_neg h2] at hd
        cases hd
  · decide

/-- C5 (witness): the banding agreement applied at value 70 on
sustainability_score, a higher-is-better metric. -/
theorem c5_banding_witness :
    getMetricColor 70 "sustainability_score" = band 70 Directionality.higher :=
  (c5_banding 70 "sustainability_score" Directionality.higher).1 (by decide)

/-- A left fold of min starting at the head is a member of the list. -/
theorem foldl_min_mem (vs : List ℚ) : ∀ v : ℚ, vs.foldl min v ∈ v :: vs := by
  induction vs with
  | nil => intro v; simp
  | cons a t ih =>
    intro v
    have h := ih (min v a)
    rcases List.mem_cons.mp h with h1 | h1
    · rcases min_choice v a with hm | hm
      · rw [List.foldl_cons, h1, hm]
        exact List.mem_cons_self _ _
      · rw [List.foldl_cons, h1, hm]
        exact List.mem_cons_of_mem _ (List.mem_cons_self _ _)
    · rw [List.foldl_cons]
      exact List.mem_cons_of_mem _ (List.mem_cons_of_mem _ h1)

/-- A left fold of min starting at the head is below every element. -/
theorem foldl_min_le (vs : List ℚ) : ∀ v : ℚ, ∀ x ∈ v :: vs, vs.foldl min v ≤ x := by
  induction vs with
  | nil =>
    intro v x hx
    simp only [List.mem_cons, List.not_mem_nil, or_false] at hx
    simp [hx]
  | cons a t ih =>
    intro v x hx
    simp only [List.foldl_cons]
    have hbase : t.foldl min (min v a) ≤ min v a :=
      ih (min v a) (min v a) (List.mem_cons_self _ _)
    rcases List.mem_cons.mp hx with h1 | h1
    · rw [h1]
      exact le_trans hbase (min_le_left v a)
    · rcases List.mem_cons.mp h1 with h2 | h2
      · rw [h2]
        exact le_trans hbase (min_le_right v a)
      · exact ih (min v a) x (List.mem_cons_of_mem _ h2)

/-- A left fold of max starting at the head is a member of the list. -/
theorem foldl_max_mem (vs : List ℚ) : ∀ v : ℚ, vs.foldl max v ∈ v :: vs := by
  induction vs with
  | nil => intro v; simp
  | cons a t ih =>
    intro v
    have h := ih (max v a)
    rcases List.mem_cons.mp h with h1 | h1
    · rcases max_choice v a with hm | hm
      · rw [List.foldl_cons, h1, hm]
        exact List.mem_cons_self _ _
      · rw [List.foldl_cons, h1, hm]
        exact List.mem_cons_of_mem _ (List.mem_cons_self _ _)
    · rw [List.foldl_cons]
      exact List.mem_cons_of_mem _ (List.mem_cons_of_mem _ h1)

/-- A left fold of max starting at the head is above every element. -/
theorem foldl_max_ge (vs : List ℚ) : ∀ v : ℚ, ∀ x ∈ v :: vs, x ≤ vs.foldl max v := by
  induction vs with
  | nil =>
    intro v x hx
    simp only [List.mem_cons, List.not_mem_nil, or_false] at hx
    simp [hx]
  | cons a t ih =>
    intro v x hx
    simp only [List.foldl_cons]
    have hbase : max v a ≤ t.foldl max (max v a) :=
      ih (max v a) (max v a) (List.mem_cons_self _ _)
    rcases List.mem_cons.mp hx with h1 | h1
    · rw [h1]
      exact le_trans (le_max_left v a) hbase
    · rcases List.mem_cons.mp h1 with h2 | h2
      · rw [h2]
        exact le_trans (le_max_right v a) hbase
      · exact ih (max v a) x (List.mem_cons_of_mem _ h2)

/-- The best value of a non-empty row is one of its values, whichever
branch is taken. -/
theorem bestValue_mem (key : String) (v : ℚ) (vs : List ℚ) :
    bestValue key (v :: vs) ∈ v :: vs := by
  simp only [bestValue]
  split
  · exact foldl_min_mem vs v
  · exact foldl_max_mem vs v

/-- jsIndexOf of a member returns the first index at which it occurs: the
result is non-negative, the list holds the element there, and the element
does not occur before it. -/
theorem jsIndexOf_first (x : ℚ) :
    ∀ values : List ℚ, x ∈ values →
      0 ≤ jsIndexOf values x ∧
      values.get? (jsIndexOf values x).toNat = some x ∧
      x ∉ values.take (jsIndexOf values x).toNat := by
  intro values
  induction values with
  | nil => intro h; cases h
  | cons v vs ih =>
    intro hx
    by_cases hv : v = x
    · refine ⟨?_, ?_, ?_⟩ <;> simp [jsIndexOf, hv]
    · have hx' : x ∈ vs := by
        rcases List.mem_cons.mp hx with h | h
        · exact absurd h.symm hv
        · exact h
      obtain ⟨h0, h1, h2⟩ := ih hx'
      have hne : jsIndexOf vs x ≠ -1 := by omega
      have hstep : jsIndexOf (v :: vs) x = jsIndexOf vs x + 1 := by
        simp [jsIndexOf, hv, hne]
      have htn : (jsIndexOf vs x + 1).toNat = (jsIndexOf vs x).toNat + 1 := by omega
      refine ⟨by omega, ?_, ?_⟩
      · rw [hstep, htn]
        simpa using h1
      · rw [hstep, htn]
        simp only [List.take_succ_cons, List.mem_cons]
        rintro (rfl | h)
        · exact hv rfl
        · exact h2 h

/-- C3: for every metric tracked by the comparison table, the best value of
a non-empty value row is the minimum of the values when the metric is
lower-is-better in the spec's directionality table and the maximum when it
is higher-is-better; in particular carbon_footprint values [80, 40, 60]
give best index 1 and sustainability_score values [70, 85, 60] give best
index 1. -/
theorem c3_best_value :
    (∀ key ∈ trackedMetrics, ∀ (v : ℚ) (vs : List ℚ),
      (specDirectionality key = some Directionality.lower →
        bestValue key (v :: vs) ∈ v :: vs ∧
          ∀ x ∈ v :: vs, bestValue key (v :: vs) ≤ x) ∧
      (specDirectionality key = some Directionality.higher →
        bestValue key (v :: vs) ∈ v :: vs ∧
          ∀ x ∈ v :: vs, x ≤ bestValue key (v :: vs))) ∧
    jsIndexOf [80, 40, 60] (bestValue "carbon_footprint" [80, 40, 60]) = 1 ∧
    jsIndexOf [70, 85, 60] (bestValue "sustainability_score" [70, 85, 60]) = 1 := by
  refine ⟨?_, by decide, by decide⟩
  intro key hk v vs
  have hbmin : ∀ k : String,
      (k = "carbon_footprint" ∨ k = "energy_consumption" ∨ k = "water_usage") →
      bestValue k (v :: vs) = vs.foldl min v := by
    intro k hkk
    simp only [bestValue]
    rw [if_pos hkk]
  have hbmax : ∀ k : String,
      ¬(k = "carbon_footprint" ∨ k = "energy_consumption" ∨ k = "water_usage") →
      bestValue k (v :: vs) = vs.foldl max v := by
    intro k hkk
    simp only [bestValue]
    rw [if_neg hkk]
  simp only [trackedMetrics, List.mem_cons, List.not_mem_nil, or_false] at hk
  rcases hk with rfl | rfl | rfl | rfl | rfl | rfl
  · refine ⟨fun _ => ?_, fun hcontra => absurd hcontra (by decide)⟩
    rw [hbmin _ (by tauto)]
    exact ⟨foldl_min_mem vs v, foldl_min_le vs v⟩
  · refine ⟨fun _ => ?_, fun hcontra => absurd hcontra (by decide)⟩
    rw [hbmin _ (by tauto)]
    exact ⟨foldl_min_mem vs v, foldl_min_le vs v⟩
  · refine ⟨fun _ => ?_, fun hcontra => absurd hcontra (by decide)⟩
    rw [hbmin _ (by tauto)]
    exact ⟨foldl_min_mem vs v, foldl_min_le vs v⟩
  · refine ⟨fun hcontra => absurd hcontra (by decide), fun _ => ?_⟩
    rw [hbmax _ (by decide)]
    exact ⟨foldl_max_mem vs v, foldl_max_ge vs v⟩
  · refine ⟨fun hcontra => absurd hcontra (by decide), fun _ => ?_⟩
    rw [hbmax _ (by decide)]
    exact ⟨foldl_max_mem vs v, foldl_max_ge vs v⟩
  · refine ⟨fun hcontra => absurd hcontra (by decide), fun _ => ?_⟩
    rw [hbmax _ (by decide)]
    exact ⟨foldl_max_mem vs v, foldl_max_ge vs v⟩

/-- C3 (witness): the theorem applied to carbon_footprint with values
80, 40, 60 shows its best value is one of the values. -/
theorem c3_best_value_witness :
    bestValue "carbon_footprint" ((80 : ℚ) :: [40, 60]) ∈ (80 : ℚ) :: [40, 60] :=
  ((c3_best_value.1 "carbon_footprint" (by decide) 80 [40, 60]).1 (by decide)).1

/-- C4: for every metric key and every non-empty value row, the best index
computed by `values.indexOf(bestValue)` is non-negative, the row holds the
best value at that index, and the best value does not occur at any earlier
index: among tied records the one with the lowest input index wins, by the
deterministic first-occurrence semantics of indexOf. -/
theorem c4_tiebreak (key : String) (v : ℚ) (vs : List ℚ) :
    0 ≤ jsIndexOf (v :: vs) (bestValue key (v :: vs)) ∧
    (v :: vs).get? (jsIndexOf (v :: vs) (bestValue key (v :: vs))).toNat =
      some (bestValue key (v :: vs)) ∧
    bestValue key (v :: vs) ∉
      (v :: vs).take (jsIndexOf (v :: vs) (bestValue key (v :: vs))).toNat :=
  jsIndexOf_first (bestValue key (v :: vs)) (v :: vs) (bestValue_mem key v vs)

/-- C6 (counterexample): a record lacking the sustainability_score key
produces exactly the same comparison table as the same record carrying
sustainability_score = 0; the output holds no incomplete flag and cannot
distinguish the two, so the metric is not marked incomplete. -/
theorem c6_counterexample :
    List.lookup "sustainability_score" recMissing.results = none ∧
    List.lookup "sustainability_score" recZero.results = some 0 ∧
    comparisonTable [recMissing, recOther] = comparisonTable [recZero, recOther] := by
  decide

/-- C6 (amended): a record whose results mapping lacks a metric key
contributes the value 0 to the ranking for that metric, but nothing is
marked incomplete: the comparison output is identical to the one obtained
when the metric is present with value 0. -/
theorem c6_missing_metric :
    (∀ (r : Record) (key : String),
      List.lookup key r.results = none → metricValue r key = 0) ∧
    comparisonTable [recMissing, recOther] = comparisonTable [recZero, recOther] := by
  constructor
  · intro r key h
    simp [metricValue, h]
  · decide

/-- C6 (witness): the missing sustainability_score key of recMissing
contributes the value 0. -/
theorem c6_missing_metric_witness :
    metricValue recMissing "sustainability_score" = 0 :=
  c6_missing_metric.1 recMissing "sustainability_score" (by decide)

/-- C7: on every state the selection UI can reach (at most 4 selected
indices, each indexing the list of available assessments, which contains
only records with non-empty results), the client-side guard of
runComparison reports an input error exactly when the selection count is
outside [2,4] or some selected record has an entirely empty results
mapping; the outside-[2,4] case reduces to fewer than 2 and the
empty-results case is unreachable, both by construction. -/
theorem c7_input_error (history : List Record) (selected : List Nat)
    (hlen : selected.length ≤ 4)
    (hvalid : ∀ i ∈ selected, i < (availableOf history).length) :
    (runComparisonGuard selected).isSome = true ↔
      (selected.length < 2 ∨ 4 < selected.length ∨
        ∃ i ∈ selected, ∃ r,
          (availableOf history).get? i = some r ∧ r.results = []) := by
  unfold runComparisonGuard
  constructor
  · intro h
    by_cases h2 : selected.length < 2
    · exact Or.inl h2
    · rw [if_neg h2] at h
      simp at h
  · rintro (h | h | ⟨i, hi, r, hr, hres⟩)
    · rw [if_pos h]
      rfl
    · exact absurd h (by omega)
    · exfalso
      have hmem : r ∈ availableOf history := List.get?_mem hr
      unfold availableOf at hmem
      have hp := List.of_mem_filter hmem
      simp only [Bool.not_eq_true', List.isEmpty_eq_false] at hp
      exact hp hres

/-- C7 (witness): the guard applied to the singleton selection [0] over a
one-record history with non-empty results does report an error. -/
theorem c7_input_error_witness : (runComparisonGuard [0]).isSome = true :=
  (c7_input_error [sampleRec] [0] (by decide) (by decide)).mpr (Or.inl (by decide))

/-- C10: adding an index (of an available record) or removing an index
preserves the selection invariant: pairwise distinct indices, at most 4 of
them, each indexing an available record with non-empty results; available
records are drawn from the filtered history, so only records with
non-empty results are ever offered. -/
theorem c10_selection_invariant (history : List Record) (selected : List Nat)
    (idx : Nat)
    (hinv : selInvariant (availableOf history) selected)
    (hidx : idx < (availableOf history).length) :
    selInvariant (availableOf history) (handleAddAssessment selected idx) ∧
    selInvariant (availableOf history) (handleRemoveAssessment selected idx) := by
  obtain ⟨hnd, hl, hmem⟩ := hinv
  constructor
  · unfold handleAddAssessment
    by_cases hc : selected.length < 4 ∧ idx ∉ selected
    · rw [if_pos hc]
      refine ⟨?_, ?_, ?_⟩
      · simp only [List.nodup_append, List.nodup_cons, List.not_mem_nil,
          not_false_iff, List.nodup_nil, and_true, true_and]
        refine ⟨hnd, ?_⟩
        intro b hb
        simp only [List.mem_singleton]
        intro hbe
        exact hc.2 (hbe ▸ hb)
      · rw [List.length_append, List.length_singleton]
        omega
      · intro i hi
        rcases List.mem_append.mp hi with h | h
        · exact hmem i h
        · have hieq : i = idx := by
            simpa using h
          subst hieq
          obtain ⟨r, hr⟩ : ∃ r, (availableOf history).get? i = some r := by
            rw [List.get?_eq_get hidx]
            exact ⟨_, rfl⟩
          refine ⟨r, hr, ?_⟩
          have hmem2 : r ∈ availableOf history := List.get?_mem hr
          unfold availableOf at hmem2
          have hp := List.of_mem_filter hmem2
          simpa only [Bool.not_eq_true', List.isEmpty_eq_false] using hp
    · rw [if_neg hc]
      exact ⟨hnd, hl, hmem⟩
  · unfold handleRemoveAssessment
    refine ⟨hnd.filter _, le_trans (List.length_filter_le _ _) hl, ?_⟩
    intro i hi
    exact hmem i (List.mem_of_mem_filter hi)

/-- C10 (witness): adding index 0 over a one-record history to an empty
selection, and removing it from an empty selection, both yield invariant
states. -/
theorem c10_selection_invariant_witness :
    selInvariant (availableOf [sampleRec]) (handleAddAssessment [] 0) ∧
    selInvariant (availableOf [sampleRec]) (handleRemoveAssessment [] 0) :=
  c10_selection_invariant [sampleRec] [] 0
    ⟨List.nodup_nil, by simp, by simp⟩ (by decide)

end LCA
